import Mathlib

/-!
Verification development for the fife-rpg registration layer.

Shallow embedding of:
* `fife_rpg/components/base.py` (`Base.register`, `Base.setup`,
  `Base.registered_as`) and the behaviourally identical
  `fife_rpg/systems/base.py` (`Base.register`),
* `fife_rpg/actions/look.py` (`LookAction.check_target`,
  `LookAction.execute`),
* `fife_rpg/game_scene.py` (`GameSceneListener.__init__` and the
  `outline_ignore` property).

Component/system types are identified by natural numbers.  A `TypeDecl`
gives the data declared on the class: its dependency list and the default
registration name used when the type is registered as a dependency
(`dependency.register()` with the subclass's default argument, as in
`LookAction.register(cls, name="Look")`).

Registry state is the pair of the manager's name-to-instance table
(append-only association list, names are bound at most once) and the
per-class `registered_as` attribute (association list from type id to the
last assigned name; `cls.__registered_as = name` is modelled by consing,
lookup takes the first match).

Python exceptions are modelled with `Option`: a `none` result of the
fuel-indexed `register` means the recursion exceeded the fuel, a `none`
result of `register_component` means `AlreadyRegisteredError` was raised.
Python truthiness of the `registered_as` string (`if not
dependency.registered_as`) is `isTruthy`: `None` and the empty string are
falsy.
-/

namespace FifeRpg

/-- Declared class-level data of a component/system type: its dependency
list (`__dependencies`) and the default name its `register` classmethod
uses when called with no argument. -/
structure TypeDecl where
  deps : List Nat
  defaultName : String

/-- Python truthiness of an optional registration name: `None` and the
empty string are falsy, every other string is truthy. -/
def isTruthy : Option String → Bool
  | none => false
  | some s => if s = "" then false else true

/-- State of one manager registry together with the class attributes:
`registry` is the name-to-instance table, `registeredAs` records each
type's `__registered_as` attribute (most recent assignment first). -/
structure RegState where
  registry : List (String × Nat)
  registeredAs : List (Nat × String)
deriving DecidableEq

/-- The state before any registration. -/
def emptyState : RegState := ⟨[], []⟩

/-- First-match lookup of a name in a registry table. -/
def lookupName (reg : List (String × Nat)) (n : String) : Option Nat :=
  match reg with
  | [] => none
  | (m, t) :: rest => if m = n then some t else lookupName rest n

/-- First-match lookup of a type's `registered_as` attribute. -/
def lookupRA (ras : List (Nat × String)) (t : Nat) : Option String :=
  match ras with
  | [] => none
  | (u, n) :: rest => if u = t then some n else lookupRA rest t

/-- A type's `registered_as` value in a state. -/
def raOf (s : RegState) (t : Nat) : Option String :=
  lookupRA s.registeredAs t

/-- Modelled from the spec: `ComponentManager.register_component` /
`SystemManager.register_system` (the managers' modules are not under
`src/`) bind `name → instance` and fail with `AlreadyRegisteredError`
(`none`) iff the name is already bound (spec section 4.1). -/
def register_component (reg : List (String × Nat)) (name : String)
    (tid : Nat) : Option (List (String × Nat)) :=
  if (lookupName reg name).isSome then none else some ((name, tid) :: reg)

/-- The dependency loop of `Base.register` (components/base.py lines
63-65, systems/base.py lines 60-62): for each declared dependency that is
not yet registered (Python truthiness of `registered_as`), call its
`register` with its default name.  The recursive `register` call is
abstracted as `regF` so the loop is structurally recursive on the list. -/
def depsLoop (types : Nat → TypeDecl)
    (regF : Nat → String → RegState → Option (Bool × RegState)) :
    List Nat → RegState → Option RegState
  | [], s => some s
  | d :: ds, s =>
    if isTruthy (raOf s d) then depsLoop types regF ds s
    else
      match regF d (types d).defaultName s with
      | none => none
      | some (_, s') => depsLoop types regF ds s'

/-- `Base.register(cls, name)` (components/base.py lines 50-69,
systems/base.py lines 44-66), indexed by fuel bounding the depth of
nested `register` calls; `none` models exceeding the fuel.  The body:
try to bind the name (raising `AlreadyRegisteredError` if taken), set
`cls.__registered_as = name`, then run the dependency loop; the
`except AlreadyRegisteredError` clause prints the error and returns
`False` with the state untouched. -/
def register (types : Nat → TypeDecl) :
    Nat → Nat → String → RegState → Option (Bool × RegState)
  | 0, _, _, _ => none
  | f + 1, tid, name, s =>
    match register_component s.registry name tid with
    | none => some (false, s)
    | some reg' =>
      match depsLoop types (register types f) (types tid).deps
          ⟨reg', (tid, name) :: s.registeredAs⟩ with
      | none => none
      | some s2 => some (true, s2)

/-! ### `Base.setup` (components/base.py lines 71-88)

An entity dictionary maps component names to data records; a data record
maps field names to (string) values.  `setup` raises `NotRegisteredError`
when the class's `registered_as` is falsy, otherwise inserts an empty
record under the registered name when the key is absent, and returns the
entity.  The `data` argument is accepted but never read, exactly as in
the source.  The result carries both the raised-exception information and
the entity dictionary after the call (the dictionary is mutated in
place in Python, so "entity after the call" is meaningful even when the
exception is raised). -/

/-- A component data record: field name to value. -/
abbrev DataRec := List (String × String)

/-- An entity dictionary: component name to data record. -/
abbrev EntityDict := List (String × DataRec)

/-- Python `key in dict` membership for an entity dictionary. -/
def containsKey (e : EntityDict) (k : String) : Bool :=
  match e with
  | [] => false
  | (k', _) :: rest => if k' = k then true else containsKey rest k

/-- First-match lookup of a component's record in an entity dictionary. -/
def lookupComp (e : EntityDict) (k : String) : Option DataRec :=
  match e with
  | [] => none
  | (k', r) :: rest => if k' = k then some r else lookupComp rest k

/-- Result of a `setup` call: the exception raised (if any) and the
entity dictionary as it stands after the call. -/
structure SetupResult where
  raised : Option String
  entity : EntityDict
deriving DecidableEq

/-- `Base.setup(cls, data, entity)`: raise `NotRegisteredError` when
`cls.registered_as` is falsy; otherwise, when the entity has no key for
the registered name, insert an empty record under it; return the
entity.  `ra` is the class's `registered_as` value. -/
def setup (ra : Option String) (data : DataRec) (entity : EntityDict) :
    SetupResult :=
  if isTruthy ra = false then ⟨some "NotRegisteredError", entity⟩
  else if containsKey entity (ra.getD "") then ⟨none, entity⟩
  else ⟨none, entity ++ [(ra.getD "", [])]⟩

/-! ### The look action (actions/look.py)

The `Description` component class and the action base class live in
modules that are not under `src/` (`fife_rpg/components/description.py`,
`fife_rpg/actions/base.py`); their interface is modelled from the spec.
An entity, as seen through the external ECS attribute access used by
`look.py`, is a mapping from component names to component data; the
accessor returned by `getattr(entity, name)` is truthy exactly when the
entity carries that component (spec sections 3 and 6). -/

/-- Modelled from the spec: the fields of the `Description` component
read by the look action (`view_name` and `desc`);
`fife_rpg/components/description.py` is not under `src/`. -/
structure DescData where
  view_name : String
  desc : String
deriving DecidableEq

/-- An entity as accessed by the look action: component name to
component data. -/
abbrev GEntity := List (String × DescData)

/-- Modelled from the spec: `getattr(entity, name)` on a bGrease entity
yields the component accessor, truthy exactly when the entity carries
the component (`none` when it does not). -/
def getComponent (e : GEntity) (n : String) : Option DescData :=
  match e with
  | [] => none
  | (m, d) :: rest => if m = n then some d else getComponent rest n

/-- Modelled from the spec: the `Description` component's registered
name, the class default used throughout (the action reads the
"description" component). -/
def descriptionName : String := "description"

/-- `LookAction.check_target(cls, entity)` (actions/look.py lines
62-74): fetch the description accessor; `if description: return True`,
`return False`. -/
def check_target (e : GEntity) : Bool :=
  match getComponent e descriptionName with
  | some _ => true
  | none => false

/-- The message printed by `LookAction.execute`
(`"You see %s. \n%s" % (description.view_name, description.desc)`). -/
def lookMessage (d : DescData) : String :=
  "You see " ++ d.view_name ++ ". \n" ++ d.desc

/-- Modelled from the spec: `Base.execute` of the action base class
(`fife_rpg/actions/base.py`, not under `src/`) triggers execution of
each follow-up command by name through the controller, in the order
supplied; the returned list records the command names in execution
order. -/
def base_execute (commands : List String) : List String := commands

/-- A constructed look action: its target entity and the follow-up
command names passed to the constructor. -/
structure LookAct where
  target : GEntity
  commands : List String

/-- `LookAction.execute` (actions/look.py lines 46-49): read the
description component of the target, print the message, then run the
inherited `Base.execute`.  `none` models the `AttributeError` raised
when the target lacks the component; otherwise the result is the emitted
message together with the follow-up commands executed, in order. -/
def look_execute (a : LookAct) : Option (String × List String) :=
  match getComponent a.target descriptionName with
  | none => none
  | some d => some (lookMessage d, base_execute a.commands)

/-! ### `GameSceneListener` (game_scene.py lines 91-118)

`__init__` assigns the attributes `engine`, `gamecontroller`,
`eventmanager` and `is_outlined`; the `outline_ignore` property getter
reads `self.__outline_ignore`, which Python name-mangles to
`_GameSceneListener__outline_ignore`. -/

/-- The attribute names assigned by `GameSceneListener.__init__`
(game_scene.py lines 107-113), for any constructor arguments. -/
def gameSceneListenerInitAttrs : List String :=
  ["engine", "gamecontroller", "eventmanager", "is_outlined"]

/-- The name-mangled backing attribute read by the `outline_ignore`
property getter (game_scene.py lines 115-118). -/
def outlineIgnoreBackingAttr : String :=
  "_GameSceneListener__outline_ignore"

/-- Reading an attribute from an object with the given attribute names:
`none` models `AttributeError`. -/
def readAttr (attrs : List String) (name : String) : Option Unit :=
  if name ∈ attrs then some () else none

/-- The `outline_ignore` property getter applied to an object whose
assigned attributes are `attrs`. -/
def outline_ignore_get (attrs : List String) : Option Unit :=
  readAttr attrs outlineIgnoreBackingAttr

/-! ### Properties of the registration state and concrete instances -/

/-- Invariant tied to every reachable registry state: each type's
`registered_as` name is bound in the registry table to that very type. -/
def RegInv (s : RegState) : Prop :=
  ∀ x m, raOf s x = some m → lookupName s.registry m = some x

/-- Registry states reachable from the initial state by any sequence of
`register` calls (with any fuel, type, and name). -/
inductive Reachable (types : Nat → TypeDecl) : RegState → Prop where
  | init : Reachable types emptyState
  | step {s : RegState} {f t : Nat} {n : String} {b : Bool} {s' : RegState} :
      Reachable types s → register types f t n s = some (b, s') →
      Reachable types s'

/-- `regF` never drops an existing registry binding. -/
def RegistryMono
    (regF : Nat → String → RegState → Option (Bool × RegState)) : Prop :=
  ∀ a n s b s', regF a n s = some (b, s') →
    ∀ m v, lookupName s.registry m = some v →
      lookupName s'.registry m = some v

/-- When `regF` is called on a type whose `registered_as` is falsy, the
`registered_as` of every type with a truthy name is untouched. -/
def TruthyFrozen
    (regF : Nat → String → RegState → Option (Bool × RegState)) : Prop :=
  ∀ a n s b s', isTruthy (raOf s a) = false → regF a n s = some (b, s') →
    ∀ x, isTruthy (raOf s x) = true → raOf s' x = raOf s x

/-- A `False` result of `regF` leaves the state untouched and happens
only when the requested name is already bound. -/
def FalseFlagCase
    (regF : Nat → String → RegState → Option (Bool × RegState)) : Prop :=
  ∀ a n s s', regF a n s = some (false, s') →
    s' = s ∧ (lookupName s.registry n).isSome = true

/-- A `True` result of `regF` binds the requested name to the type in
the final registry, and (for a truthy name) sets its `registered_as`. -/
def TrueFlagCase
    (regF : Nat → String → RegState → Option (Bool × RegState)) : Prop :=
  ∀ a n s s', regF a n s = some (true, s') →
    lookupName s'.registry n = some a ∧ (n ≠ "" → raOf s' a = some n)

/-- `regF` preserves the registry invariant. -/
def InvPres
    (regF : Nat → String → RegState → Option (Bool × RegState)) : Prop :=
  ∀ a n s b s', regF a n s = some (b, s') → RegInv s → RegInv s'

/-- `s` contains `sub` as a contiguous substring. -/
def containsSubstr (s sub : String) : Prop :=
  ∃ p q, s = p ++ sub ++ q

/-- A type table with no dependencies and default name `"z"`, used for
concrete instances. -/
def types0 : Nat → TypeDecl := fun _ => ⟨[], "z"⟩

/-- A cyclic dependency declaration: type `0` depends on type `1` and
type `1` depends on type `0` (defaults `"a"` and `"b"`). -/
def cycTypes : Nat → TypeDecl := fun t =>
  if t = 0 then ⟨[1], "a"⟩ else if t = 1 then ⟨[0], "b"⟩ else ⟨[], "z"⟩

/-- The state produced by `register cycTypes _ 0 "x" emptyState`: both
types of the cycle registered, each exactly once. -/
def cycFinal : RegState := ⟨[("b", 1), ("x", 0)], [(1, "b"), (0, "x")]⟩

/-- A table where type `0` depends on type `1`, and type `1`'s default
name `"d"` collides with type `2`'s default name `"d"`. -/
def clashTypes : Nat → TypeDecl := fun t =>
  if t = 0 then ⟨[1], "t"⟩
  else if t = 1 then ⟨[], "d"⟩ else ⟨[], "d"⟩

/-!
## Theorems

Helper lemmas about the embedding, followed by one theorem per claim
(with its witness or counterexample where applicable).
-/

theorem register_zero (types : Nat → TypeDecl) (a : Nat) (n : String)
    (s : RegState) : register types 0 a n s = none := rfl

theorem register_succ (types : Nat → TypeDecl) (f a : Nat) (n : String)
    (s : RegState) :
    register types (f + 1) a n s =
      match register_component s.registry n a with
      | none => some (false, s)
      | some reg' =>
        match depsLoop types (register types f) (types a).deps
            ⟨reg', (a, n) :: s.registeredAs⟩ with
        | none => none
        | some s2 => some (true, s2) := rfl

theorem depsLoop_nil (types : Nat → TypeDecl)
    (regF : Nat → String → RegState → Option (Bool × RegState))
    (s : RegState) : depsLoop types regF [] s = some s := rfl

theorem depsLoop_cons (types : Nat → TypeDecl)
    (regF : Nat → String → RegState → Option (Bool × RegState))
    (d : Nat) (ds : List Nat) (s : RegState) :
    depsLoop types regF (d :: ds) s =
      if isTruthy (raOf s d) then depsLoop types regF ds s
      else
        match regF d (types d).defaultName s with
        | none => none
        | some (_, s') => depsLoop types regF ds s' := rfl

theorem isTruthy_some_ne (n : String) (h : n ≠ "") :
    isTruthy (some n) = true := by
  simp [isTruthy, h]

theorem raOf_cons (a : Nat) (n : String) (s : RegState) (x : Nat) :
    raOf ⟨s.registry, (a, n) :: s.registeredAs⟩ x
      = if a = x then some n else raOf s x := rfl

/-- Every existing binding survives a `depsLoop` run, provided the
recursive `register` preserves bindings. -/
theorem depsLoop_mono (types : Nat → TypeDecl)
    (regF : Nat → String → RegState → Option (Bool × RegState))
    (hm : RegistryMono regF) :
    ∀ ds s s', depsLoop types regF ds s = some s' →
      ∀ m v, lookupName s.registry m = some v →
        lookupName s'.registry m = some v := by
  intro ds
  induction ds with
  | nil =>
    intro s s' h m v hv
    rw [depsLoop_nil] at h
    cases h
    exact hv
  | cons d ds ih =>
    intro s s' h m v hv
    rw [depsLoop_cons] at h
    by_cases hd : isTruthy (raOf s d) = true
    · rw [if_pos hd] at h
      exact ih s s' h m v hv
    · rw [if_neg hd] at h
      cases hreg : regF d (types d).defaultName s with
      | none => rw [hreg] at h; cases h
      | some r =>
        rw [hreg] at h
        exact ih r.2 s' h m v (hm d (types d).defaultName s r.1 r.2
          (by rw [hreg]) m v hv)

/-- The `registered_as` of every truthy-named type survives a
`depsLoop` run, provided the recursive `register` freezes truthy
names on its (guarded) calls. -/
theorem depsLoop_truthy (types : Nat → TypeDecl)
    (regF : Nat → String → RegState → Option (Bool × RegState))
    (ht : TruthyFrozen regF) :
    ∀ ds s s', depsLoop types regF ds s = some s' →
      ∀ x, isTruthy (raOf s x) = true → raOf s' x = raOf s x := by
  intro ds
  induction ds with
  | nil =>
    intro s s' h x hx
    rw [depsLoop_nil] at h
    cases h
    rfl
  | cons d ds ih =>
    intro s s' h x hx
    rw [depsLoop_cons] at h
    by_cases hd : isTruthy (raOf s d) = true
    · rw [if_pos hd] at h
      exact ih s s' h x hx
    · rw [if_neg hd] at h
      cases hreg : regF d (types d).defaultName s with
      | none => rw [hreg] at h; cases h
      | some r =>
        rw [hreg] at h
        have hstep : raOf r.2 x = raOf s x :=
          ht d (types d).defaultName s r.1 r.2
            (Bool.not_eq_true _ ▸ hd) (by rw [hreg]) x hx
        have := ih r.2 s' h x (by rw [hstep]; exact hx)
        rw [this, hstep]

/-- If `register_component` raises (`none`), the name was already
bound. -/
theorem register_component_eq_none (reg : List (String × Nat)) (n : String)
    (t : Nat) (h : register_component reg n t = none) :
    (lookupName reg n).isSome = true := by
  by_cases hc : (lookupName reg n).isSome = true
  · exact hc
  · rw [register_component, if_neg hc] at h
    cases h

/-- If `register_component` succeeds, the name was free and the new
binding is consed onto the table. -/
theorem register_component_eq_some (reg : List (String × Nat)) (n : String)
    (t : Nat) (reg' : List (String × Nat))
    (h : register_component reg n t = some reg') :
    (lookupName reg n).isSome = false ∧ reg' = (n, t) :: reg := by
  by_cases hc : (lookupName reg n).isSome = true
  · rw [register_component, if_pos hc] at h
    cases h
  · rw [register_component, if_neg hc] at h
    cases h
    exact ⟨Bool.not_eq_true _ ▸ hc, rfl⟩

/-- At every fuel, `register` never drops an existing registry binding
and never disturbs the `registered_as` of a truthy-named type when the
registered type's own name is falsy. -/
theorem register_mono_truthy (types : Nat → TypeDecl) :
    ∀ f, RegistryMono (register types f) ∧ TruthyFrozen (register types f) := by
  intro f
  induction f with
  | zero =>
    constructor
    · intro a n s b s' h
      rw [register_zero] at h
      cases h
    · intro a n s b s' _ h
      rw [register_zero] at h
      cases h
  | succ f ih =>
    constructor
    · intro a n s b s' h m v hv
      rw [register_succ] at h
      split at h
      · cases h
        exact hv
      · rename_i reg' hrc
        split at h
        · cases h
        · rename_i s2 hdl
          cases h
          obtain ⟨hfresh, hreg'⟩ :=
            register_component_eq_some s.registry n a reg' hrc
          have hv1 : lookupName
              (RegState.mk reg' ((a, n) :: s.registeredAs)).registry m
                = some v := by
            rw [hreg']
            show lookupName ((n, a) :: s.registry) m = some v
            rw [lookupName]
            by_cases hnm : n = m
            · exfalso
              rw [hnm, hv] at hfresh
              cases hfresh
            · rw [if_neg hnm]
              exact hv
          exact depsLoop_mono types (register types f) ih.1 _ _ _ hdl m v hv1
    · intro a n s b s' hguard h x hx
      rw [register_succ] at h
      split at h
      · cases h
        rfl
      · rename_i reg' hrc
        split at h
        · cases h
        · rename_i s2 hdl
          cases h
          have hax : a ≠ x := by
            intro he
            rw [he, hx] at hguard
            cases hguard
          have hx1 : raOf (RegState.mk reg' ((a, n) :: s.registeredAs)) x
              = raOf s x := by
            show lookupRA ((a, n) :: s.registeredAs) x = raOf s x
            rw [lookupRA, if_neg hax]
            rfl
          have := depsLoop_truthy types (register types f) ih.2 _ _ _ hdl x
            (by rw [hx1]; exact hx)
          rw [this, hx1]

/-- A `False` return of `register` (the swallowed
`AlreadyRegisteredError`) leaves the state untouched and happens exactly
when the requested name is already bound. -/
theorem register_false_case (types : Nat → TypeDecl) (f : Nat) :
    FalseFlagCase (register types f) := by
  intro a n s s' h
  cases f with
  | zero => rw [register_zero] at h; cases h
  | succ f =>
    rw [register_succ] at h
    split at h
    · rename_i hrc
      cases h
      exact ⟨rfl, register_component_eq_none s.registry n a hrc⟩
    · split at h
      · cases h
      · cases h

/-- A `True` return of `register` leaves the requested name bound to the
registered type, and (for a truthy name) its `registered_as` set to that
name. -/
theorem register_true_case (types : Nat → TypeDecl) (f : Nat) :
    TrueFlagCase (register types f) := by
  intro a n s s' h
  cases f with
  | zero => rw [register_zero] at h; cases h
  | succ f =>
    rw [register_succ] at h
    split at h
    · cases h
    · rename_i reg' hrc
      split at h
      · cases h
      · rename_i s2 hdl
        cases h
        obtain ⟨hfresh, hreg'⟩ :=
          register_component_eq_some s.registry n a reg' hrc
        constructor
        · have hv1 : lookupName
              (RegState.mk reg' ((a, n) :: s.registeredAs)).registry n
                = some a := by
            rw [hreg']
            show lookupName ((n, a) :: s.registry) n = some a
            rw [lookupName, if_pos rfl]
          exact depsLoop_mono types (register types f)
            (register_mono_truthy types f).1 _ _ _ hdl n a hv1
        · intro hne
          have hra1 : raOf (RegState.mk reg' ((a, n) :: s.registeredAs)) a
              = some n := by
            show lookupRA ((a, n) :: s.registeredAs) a = some n
            rw [lookupRA, if_pos rfl]
          have := depsLoop_truthy types (register types f)
            (register_mono_truthy types f).2 _ _ _ hdl a
            (by rw [hra1]; exact isTruthy_some_ne n hne)
          rw [this, hra1]

/-- After a completed `depsLoop`, every dependency in the processed list
either has a truthy `registered_as` or its default name is bound in the
registry (the latter covers the silent failure of a dependency whose
default name was already taken, and registration under an empty default
name). -/
theorem depsLoop_deps_spec (types : Nat → TypeDecl)
    (regF : Nat → String → RegState → Option (Bool × RegState))
    (hm : RegistryMono regF) (ht : TruthyFrozen regF)
    (hfc : FalseFlagCase regF) (htc : TrueFlagCase regF) :
    ∀ ds s s', depsLoop types regF ds s = some s' →
      ∀ d ∈ ds, isTruthy (raOf s' d) = true ∨
        (lookupName s'.registry ((types d).defaultName)).isSome = true := by
  intro ds
  induction ds with
  | nil =>
    intro s s' _ d hd
    cases hd
  | cons d0 ds ih =>
    intro s s' h d hd
    rw [depsLoop_cons] at h
    by_cases hd0 : isTruthy (raOf s d0) = true
    · rw [if_pos hd0] at h
      rcases List.mem_cons.mp hd with hd | hd
      · subst hd
        left
        rw [depsLoop_truthy types regF ht ds s s' h d hd0]
        exact hd0
      · exact ih s s' h d hd
    · rw [if_neg hd0] at h
      cases hreg : regF d0 (types d0).defaultName s with
      | none => rw [hreg] at h; cases h
      | some r =>
        obtain ⟨rb, rs⟩ := r
        rw [hreg] at h
        rcases List.mem_cons.mp hd with hd | hd
        · subst hd
          right
          cases rb with
          | false =>
            obtain ⟨hse, hbound⟩ := hfc d (types d).defaultName s rs hreg
            obtain ⟨v, hv⟩ := Option.isSome_iff_exists.mp hbound
            have := depsLoop_mono types regF hm ds rs s' h
              (types d).defaultName v (by rw [hse]; exact hv)
            rw [this]
            rfl
          | true =>
            obtain ⟨hbound, _⟩ := htc d (types d).defaultName s rs hreg
            have := depsLoop_mono types regF hm ds rs s' h
              (types d).defaultName d hbound
            rw [this]
            rfl
        · exact ih rs s' h d hd

/-- `register` preserves the registry invariant at every fuel, and so
does `depsLoop` given that its recursive `register` does. -/
theorem depsLoop_inv (types : Nat → TypeDecl)
    (regF : Nat → String → RegState → Option (Bool × RegState))
    (hp : InvPres regF) :
    ∀ ds s s', depsLoop types regF ds s = some s' → RegInv s → RegInv s' := by
  intro ds
  induction ds with
  | nil =>
    intro s s' h hinv
    rw [depsLoop_nil] at h
    cases h
    exact hinv
  | cons d ds ih =>
    intro s s' h hinv
    rw [depsLoop_cons] at h
    by_cases hd : isTruthy (raOf s d) = true
    · rw [if_pos hd] at h
      exact ih s s' h hinv
    · rw [if_neg hd] at h
      cases hreg : regF d (types d).defaultName s with
      | none => rw [hreg] at h; cases h
      | some r =>
        rw [hreg] at h
        exact ih r.2 s' h
          (hp d (types d).defaultName s r.1 r.2 (by rw [hreg]) hinv)

/-- The registry invariant: every `register` call, at every fuel,
preserves it. -/
theorem register_inv_pres (types : Nat → TypeDecl) :
    ∀ f, InvPres (register types f) := by
  intro f
  induction f with
  | zero =>
    intro a n s b s' h
    rw [register_zero] at h
    cases h
  | succ f ih =>
    intro a n s b s' h hinv
    rw [register_succ] at h
    split at h
    · cases h
      exact hinv
    · rename_i reg' hrc
      split at h
      · cases h
      · rename_i s2 hdl
        cases h
        obtain ⟨hfresh, hreg'⟩ :=
          register_component_eq_some s.registry n a reg' hrc
        have hinv1 : RegInv (RegState.mk reg' ((a, n) :: s.registeredAs)) := by
          intro x m hx
          rw [hreg']
          show lookupName ((n, a) :: s.registry) m = some x
          have hx' : lookupRA ((a, n) :: s.registeredAs) x = some m := hx
          rw [lookupRA] at hx'
          by_cases hax : a = x
          · rw [if_pos hax] at hx'
            cases hx'
            rw [lookupName, if_pos rfl, hax]
          · rw [if_neg hax] at hx'
            have hold := hinv x m hx'
            rw [lookupName]
            by_cases hnm : n = m
            · exfalso
              rw [hnm, hold] at hfresh
              cases hfresh
            · rw [if_neg hnm]
              exact hold
        exact depsLoop_inv types (register types f) ih _ _ _ hdl hinv1

/-- Every reachable registry state satisfies the registry invariant. -/
theorem reachable_inv (types : Nat → TypeDecl) (s : RegState)
    (h : Reachable types s) : RegInv s := by
  induction h with
  | init =>
    intro x m hx
    cases hx
  | step _ hstep ih =>
    rename_i s0 f t n b s1 _
    exact register_inv_pres types f t n s0 b s1 hstep ih

/-- Raising the fuel of a completed `depsLoop` run does not change its
result, provided it does not change the recursive `register`'s. -/
theorem depsLoop_fuel_step (types : Nat → TypeDecl)
    (regF regF' : Nat → String → RegState → Option (Bool × RegState))
    (hstep : ∀ a n s r, regF a n s = some r → regF' a n s = some r) :
    ∀ ds s s', depsLoop types regF ds s = some s' →
      depsLoop types regF' ds s = some s' := by
  intro ds
  induction ds with
  | nil =>
    intro s s' h
    exact h
  | cons d ds ih =>
    intro s s' h
    rw [depsLoop_cons] at h
    rw [depsLoop_cons]
    by_cases hd : isTruthy (raOf s d) = true
    · rw [if_pos hd] at h ⊢
      exact ih s s' h
    · rw [if_neg hd] at h ⊢
      cases hreg : regF d (types d).defaultName s with
      | none => rw [hreg] at h; cases h
      | some r =>
        rw [hreg] at h
        rw [hstep d (types d).defaultName s r hreg]
        exact ih r.2 s' h

/-- Raising the fuel of a completed `register` call by one does not
change its result. -/
theorem register_fuel_succ (types : Nat → TypeDecl) :
    ∀ f a n s r, register types f a n s = some r →
      register types (f + 1) a n s = some r := by
  intro f
  induction f with
  | zero =>
    intro a n s r h
    rw [register_zero] at h
    cases h
  | succ f ih =>
    intro a n s r h
    rw [register_succ] at h
    rw [register_succ]
    split at h
    · exact h
    · rename_i reg' hrc
      split at h
      · cases h
      · rename_i s2 hdl
        rw [depsLoop_fuel_step types (register types f) (register types (f + 1))
          ih _ _ _ hdl]
        exact h

/-- Raising the fuel of a completed `register` call by any amount does
not change its result. -/
theorem register_fuel_mono (types : Nat → TypeDecl) (f k : Nat) (a : Nat)
    (n : String) (s : RegState) (r : Bool × RegState)
    (h : register types f a n s = some r) :
    register types (f + k) a n s = some r := by
  induction k with
  | zero => exact h
  | succ k ih => exact register_fuel_succ types (f + k) a n s r ih

/-- A key appended at the end of an entity dictionary is found by
`containsKey`. -/
theorem containsKey_append_self (e : EntityDict) (n : String) (r : DataRec) :
    containsKey (e ++ [(n, r)]) n = true := by
  induction e with
  | nil =>
    show (if n = n then true else containsKey [] n) = true
    rw [if_pos rfl]
  | cons p rest ih =>
    obtain ⟨k', r'⟩ := p
    show (if k' = n then true else containsKey (rest ++ [(n, r)]) n) = true
    by_cases hk : k' = n
    · rw [if_pos hk]
    · rw [if_neg hk]
      exact ih

/-- A record found in an entity dictionary is still found after
appending further records. -/
theorem lookupComp_append_left (e l : EntityDict) (k : String) (r : DataRec)
    (h : lookupComp e k = some r) : lookupComp (e ++ l) k = some r := by
  induction e with
  | nil => cases h
  | cons p rest ih =>
    obtain ⟨k', r'⟩ := p
    show (if k' = k then some r' else lookupComp (rest ++ l) k) = some r
    have h' : (if k' = k then some r' else lookupComp rest k) = some r := h
    by_cases hk : k' = k
    · rw [if_pos hk] at h' ⊢
      exact h'
    · rw [if_neg hk] at h' ⊢
      exact ih h'

/-- A record found after appending a single entry was either found
before, or is that very entry's record. -/
theorem lookupComp_append_singleton (e : EntityDict) (n : String)
    (v : DataRec) (k : String) (r : DataRec)
    (h : lookupComp (e ++ [(n, v)]) k = some r) :
    lookupComp e k = some r ∨ r = v := by
  induction e with
  | nil =>
    have h' : (if n = k then some v else (none : Option DataRec)) = some r := h
    by_cases hk : n = k
    · rw [if_pos hk] at h'
      cases h'
      right
      rfl
    · rw [if_neg hk] at h'
      cases h'
  | cons p rest ih =>
    obtain ⟨k', r'⟩ := p
    have h' : (if k' = k then some r' else lookupComp (rest ++ [(n, v)]) k)
        = some r := h
    by_cases hk : k' = k
    · rw [if_pos hk] at h'
      left
      show (if k' = k then some r' else lookupComp rest k) = some r
      rw [if_pos hk]
      exact h'
    · rw [if_neg hk] at h'
      rcases ih h' with hl | hr
      · left
        show (if k' = k then some r' else lookupComp rest k) = some r
        rw [if_neg hk]
        exact hl
      · right
        exact hr

/-! ### Claim theorems -/

/-- C1: registering a name that is already bound fails on the duplicate
attempt (the `AlreadyRegisteredError` is swallowed at the `register`
boundary), `register` returns `False` with the registry binding and
every `registered_as` attribute of the first registration intact (the
state is returned unchanged), while a successful registration returns
`True`.  The model covers both `components/base.py` and the identical
`systems/base.py` register logic. -/
theorem register_duplicate_swallowed (types : Nat → TypeDecl) :
    (∀ f t n s, (lookupName s.registry n).isSome = true →
      register types (f + 1) t n s = some (false, s)) ∧
    (∀ f t n s b s', lookupName s.registry n = none →
      register types f t n s = some (b, s') → b = true) := by
  constructor
  · intro f t n s h
    rw [register_succ]
    have hrc : register_component s.registry n t = none := by
      rw [register_component, if_pos h]
    rw [hrc]
  · intro f t n s b s' hfree h
    cases f with
    | zero => rw [register_zero] at h; cases h
    | succ f =>
      rw [register_succ] at h
      split at h
      · rename_i hrc
        have := register_component_eq_none s.registry n t hrc
        rw [hfree] at this
        cases this
      · split at h
        · cases h
        · cases h
          rfl

/-- Witness for C1: in a registry where `"x"` is bound to type `0`,
registering type `1` under `"x"` returns `False` and leaves the state
unchanged; registering into the empty registry returned `True`. -/
theorem register_duplicate_swallowed_w :
    register types0 1 1 "x" ⟨[("x", 0)], [(0, "x")]⟩
        = some (false, ⟨[("x", 0)], [(0, "x")]⟩) ∧
    true = true :=
  ⟨(register_duplicate_swallowed types0).1 0 1 "x" ⟨[("x", 0)], [(0, "x")]⟩
      rfl,
   (register_duplicate_swallowed types0).2 1 0 "x" emptyState true
      ⟨[("x", 0)], [(0, "x")]⟩ rfl rfl⟩

/-- C2 counterexample: with the cyclic declaration `cycTypes` (type `0`
depends on type `1` and vice versa, neither registered), the call
`register cycTypes _ 0 "x" emptyState` terminates — already at recursion
depth 2 it returns `True`, with both types of the cycle registered —
refuting the claim that it recurses indefinitely.  The reason is visible
in the source: `cls.__registered_as = name` is assigned *before* the
dependency loop, so the loop's `if not dependency.registered_as` guard
stops the recursion at the cycle. -/
theorem register_cycle_counterexample :
    register cycTypes 2 0 "x" emptyState = some (true, cycFinal) ∧
    isTruthy (raOf cycFinal 0) = true ∧
    isTruthy (raOf cycFinal 1) = true := ⟨rfl, rfl, rfl⟩

/-- C2 (amended): circular dependency graphs are indeed neither detected
nor rejected, but registration on the cycle terminates rather than
recursing indefinitely: at every recursion-depth budget of at least 2
the call returns the same successful result, with each type of the
cycle registered exactly once (`registered_as` acts as a visited
marker because it is set before the dependency loop runs). -/
theorem register_cycle_terminates (k : Nat) :
    register cycTypes (2 + k) 0 "x" emptyState = some (true, cycFinal) ∧
    raOf cycFinal 0 = some "x" ∧ raOf cycFinal 1 = some "b" :=
  ⟨register_fuel_mono cycTypes 2 k 0 "x" emptyState (true, cycFinal) rfl,
   rfl, rfl⟩

/-- Witness for C2 (amended): instantiated at the smallest budget. -/
theorem register_cycle_terminates_w :
    register cycTypes (2 + 0) 0 "x" emptyState = some (true, cycFinal) ∧
    raOf cycFinal 0 = some "x" ∧ raOf cycFinal 1 = some "b" :=
  register_cycle_terminates 0

/-- C3 counterexample: with `clashTypes`, register type `2` under `"d"`
(type `1`'s default name), then register type `0` (which depends on
type `1`) under the fresh name `"t"`.  The call returns `True`, yet its
direct dependency, type `1`, ends up *not* registered: the recursive
`register` of the dependency under its default name `"d"` hit the
duplicate-name error and was silently swallowed. -/
theorem register_resolves_deps_counterexample :
    register clashTypes 1 2 "d" emptyState
        = some (true, ⟨[("d", 2)], [(2, "d")]⟩) ∧
    register clashTypes 2 0 "t" ⟨[("d", 2)], [(2, "d")]⟩
        = some (true, ⟨[("t", 0), ("d", 2)], [(0, "t"), (2, "d")]⟩) ∧
    (1 : Nat) ∈ (clashTypes 0).deps ∧
    raOf ⟨[("t", 0), ("d", 2)], [(0, "t"), (2, "d")]⟩ 1 = none := by
  refine ⟨rfl, rfl, ?_, rfl⟩
  show (1 : Nat) ∈ [1]
  simp

/-- C3 (amended): a successful `register` of a not-yet-registered type
`t` under name `n` binds `t` under `n`, leaves every already-registered
(truthy-named) type's `registered_as` untouched (already registered
dependencies are not re-registered), and for each direct dependency `d`
of `t` either `d` ends up registered (truthy `registered_as`, under its
own default name when it was fresh, not a caller-chosen one) or `d`'s
default name was already bound to an earlier registration and the
dependency's silent registration failure leaves it unregistered. -/
theorem register_resolves_deps (types : Nat → TypeDecl) (f t : Nat)
    (n : String) (s s' : RegState)
    (hfresh : isTruthy (raOf s t) = false)
    (h : register types f t n s = some (true, s')) :
    lookupName s'.registry n = some t ∧
    (∀ x, isTruthy (raOf s x) = true → raOf s' x = raOf s x) ∧
    ∀ d ∈ (types t).deps, isTruthy (raOf s' d) = true ∨
      (lookupName s'.registry ((types d).defaultName)).isSome = true := by
  refine ⟨(register_true_case types f t n s s' h).1,
    fun x hx => (register_mono_truthy types f).2 t n s true s' hfresh h x hx,
    ?_⟩
  cases f with
  | zero => rw [register_zero] at h; cases h
  | succ f =>
    rw [register_succ] at h
    split at h
    · cases h
    · rename_i reg' hrc
      split at h
      · cases h
      · rename_i s2 hdl
        cases h
        exact depsLoop_deps_spec types (register types f)
          (register_mono_truthy types f).1 (register_mono_truthy types f).2
          (register_false_case types f) (register_true_case types f)
          _ _ _ hdl

/-- Witness for C3 (amended): registering type `0` of the cycle into the
empty registry leaves its name bound to it. -/
theorem register_resolves_deps_w :
    lookupName cycFinal.registry "x" = some 0 :=
  (register_resolves_deps cycTypes 2 0 "x" emptyState cycFinal rfl rfl).1

/-- C4 counterexample: register type `0` under the *empty* name.  The
registration succeeds and sets `registered_as` to `""` — so it is not
unset — yet `setup` still raises `NotRegisteredError`, because the
source tests `if not cls.registered_as`, which is Python truthiness,
not an unset check. -/
theorem setup_raises_counterexample :
    register types0 1 0 "" emptyState
        = some (true, ⟨[("", 0)], [(0, "")]⟩) ∧
    raOf ⟨[("", 0)], [(0, "")]⟩ 0 = some "" ∧
    (setup (raOf ⟨[("", 0)], [(0, "")]⟩ 0) [] [("a", [])]).raised
        = some "NotRegisteredError" ∧
    (setup (raOf ⟨[("", 0)], [(0, "")]⟩ 0) [] [("a", [])]).entity
        = [("a", [])] := ⟨rfl, rfl, rfl, rfl⟩

/-- C4 (amended): `setup` raises `NotRegisteredError` iff the class's
`registered_as` is falsy — unset *or* equal to the empty string — and
when it raises, the entity dictionary is left unchanged. -/
theorem setup_raises_iff (ra : Option String) (d : DataRec)
    (e : EntityDict) :
    ((setup ra d e).raised ≠ none ↔ isTruthy ra = false) ∧
    (isTruthy ra = false → setup ra d e = ⟨some "NotRegisteredError", e⟩) := by
  by_cases hra : isTruthy ra = false
  · refine ⟨⟨fun _ => hra, fun _ => ?_⟩, fun _ => ?_⟩
    · rw [setup, if_pos hra]
      intro hc
      cases hc
    · rw [setup, if_pos hra]
  · refine ⟨⟨fun hr => ?_, fun hc => absurd hc hra⟩,
      fun hc => absurd hc hra⟩
    exfalso
    apply hr
    rw [setup, if_neg hra]
    by_cases hck : containsKey e (ra.getD "") = true
    · rw [if_pos hck]
    · rw [if_neg hck]

/-- Witness for C4 (amended): on an unregistered class `setup` raises
and leaves the entity unchanged. -/
theorem setup_raises_iff_w :
    setup none [] [("a", [])] = ⟨some "NotRegisteredError", [("a", [])]⟩ :=
  (setup_raises_iff none [] [("a", [])]).2 rfl

/-- C5: on a registered component type (truthy `registered_as`),
`setup` does not raise, is idempotent — running it again on its own
result changes nothing — and never overwrites an existing data record
of the entity. -/
theorem setup_idempotent (ra : Option String) (d : DataRec)
    (e : EntityDict) (h : isTruthy ra = true) :
    (setup ra d e).raised = none ∧
    setup ra d (setup ra d e).entity = ⟨none, (setup ra d e).entity⟩ ∧
    ∀ k r, lookupComp e k = some r →
      lookupComp (setup ra d e).entity k = some r := by
  have hne : ¬ isTruthy ra = false := by
    rw [h]
    intro hc
    cases hc
  by_cases hck : containsKey e (ra.getD "") = true
  · have hs : setup ra d e = ⟨none, e⟩ := by
      rw [setup, if_neg hne, if_pos hck]
    refine ⟨by rw [hs], ?_, ?_⟩
    · rw [hs]
      exact hs
    · intro k r hkr
      rw [hs]
      exact hkr
  · have hs : setup ra d e = ⟨none, e ++ [(ra.getD "", [])]⟩ := by
      rw [setup, if_neg hne, if_neg hck]
    have hck2 : containsKey (e ++ [(ra.getD "", [])]) (ra.getD "") = true :=
      containsKey_append_self e (ra.getD "") []
    refine ⟨by rw [hs], ?_, ?_⟩
    · rw [hs]
      show setup ra d (e ++ [(ra.getD "", [])])
          = ⟨none, e ++ [(ra.getD "", [])]⟩
      rw [setup, if_neg hne, if_pos hck2]
    · intro k r hkr
      rw [hs]
      exact lookupComp_append_left e [(ra.getD "", [])] k r hkr

/-- Witness for C5: a concrete registered setup run, twice. -/
theorem setup_idempotent_w :
    (setup (some "c") [("f", "1")] [("a", [])]).raised = none ∧
    setup (some "c") [("f", "1")]
        (setup (some "c") [("f", "1")] [("a", [])]).entity
      = ⟨none, (setup (some "c") [("f", "1")] [("a", [])]).entity⟩ :=
  ⟨(setup_idempotent (some "c") [("f", "1")] [("a", [])] rfl).1,
   (setup_idempotent (some "c") [("f", "1")] [("a", [])] rfl).2.1⟩

/-- C6 counterexample: `registered_as` is *not* immutable once set —
after type `0` is registered under `"x"`, a later successful
`register` of the same type under the fresh name `"y"` succeeds (the
duplicate check only inspects the requested name) and overwrites
`registered_as` from `"x"` to `"y"`. -/
theorem registered_as_immutable_counterexample :
    register types0 1 0 "x" emptyState
        = some (true, ⟨[("x", 0)], [(0, "x")]⟩) ∧
    raOf ⟨[("x", 0)], [(0, "x")]⟩ 0 = some "x" ∧
    register types0 1 0 "y" ⟨[("x", 0)], [(0, "x")]⟩
        = some (true, ⟨[("y", 0), ("x", 0)], [(0, "y"), (0, "x")]⟩) ∧
    raOf ⟨[("y", 0), ("x", 0)], [(0, "y"), (0, "x")]⟩ 0 = some "y" :=
  ⟨rfl, rfl, rfl, rfl⟩

/-- C6 (amended): `registered_as` can be rebound when the same type is
successfully registered again under a different fresh name, but global
uniqueness does hold: in every reachable registry state no two distinct
types hold the same `registered_as` name. -/
theorem registered_as_unique (types : Nat → TypeDecl) (s : RegState)
    (h : Reachable types s) (x y : Nat) (m : String)
    (hx : raOf s x = some m) (hy : raOf s y = some m) : x = y := by
  have hix := reachable_inv types s h x m hx
  have hiy := reachable_inv types s h y m hy
  rw [hix] at hiy
  exact Option.some.inj hiy

/-- Witness for C6 (amended): applied in the reachable state where type
`0` is registered under `"x"`. -/
theorem registered_as_unique_w : (0 : Nat) = 0 :=
  registered_as_unique types0 ⟨[("x", 0)], [(0, "x")]⟩
    (Reachable.step Reachable.init
      (rfl : register types0 1 0 "x" emptyState
        = some (true, ⟨[("x", 0)], [(0, "x")]⟩)))
    0 0 "x" rfl rfl

/-- C7: `LookAction.check_target` returns `True` exactly when the
entity carries a `"description"` component, and `False` otherwise — in
particular it is a total Boolean function, not an error. -/
theorem check_target_iff (e : GEntity) :
    check_target e = true ↔ (getComponent e descriptionName).isSome = true := by
  cases hg : getComponent e descriptionName with
  | none => simp [check_target, hg]
  | some d => simp [check_target, hg]

/-- Witness for C7: an entity with a description component checks as a
valid target. -/
theorem check_target_iff_w :
    check_target [("description", ⟨"name", "text"⟩)] = true :=
  (check_target_iff [("description", ⟨"name", "text"⟩)]).mpr rfl

/-- C8: executing the look action on a valid target (an entity carrying
the description component) emits the message containing the target's
view name and description text, and then triggers every supplied
follow-up command, in the order given. -/
theorem look_execute_spec (a : LookAct) (d : DescData)
    (h : getComponent a.target descriptionName = some d) :
    look_execute a = some (lookMessage d, a.commands) ∧
    containsSubstr (lookMessage d) d.view_name ∧
    containsSubstr (lookMessage d) d.desc := by
  refine ⟨?_, ⟨"You see ", ". \n" ++ d.desc, ?_⟩,
    ⟨"You see " ++ d.view_name ++ ". \n", "", ?_⟩⟩
  · rw [look_execute, h]
    rfl
  · rw [lookMessage, String.append_assoc]
  · rw [lookMessage, String.append_empty]

/-- Witness for C8: a concrete look action on a valid target. -/
theorem look_execute_spec_w :
    look_execute ⟨[("description", ⟨"a box", "It is a box."⟩)],
        ["cmd1", "cmd2"]⟩
      = some (lookMessage ⟨"a box", "It is a box."⟩, ["cmd1", "cmd2"]) :=
  (look_execute_spec
    ⟨[("description", ⟨"a box", "It is a box."⟩)], ["cmd1", "cmd2"]⟩
    ⟨"a box", "It is a box."⟩ rfl).1

/-- C9: `setup` never reads its `data` argument — two runs with
arbitrary different data records produce identical results — and any
record present after `setup` was either already in the entity or is the
freshly inserted empty record (no field values are ever copied). -/
theorem setup_ignores_data :
    (∀ (ra : Option String) (d1 d2 : DataRec) (e : EntityDict),
      setup ra d1 e = setup ra d2 e) ∧
    (∀ (ra : Option String) (d : DataRec) (e : EntityDict) (k : String)
      (r : DataRec), lookupComp (setup ra d e).entity k = some r →
        lookupComp e k = some r ∨ r = []) := by
  constructor
  · intro ra d1 d2 e
    rfl
  · intro ra d e k r h
    by_cases hra : isTruthy ra = false
    · left
      rw [setup, if_pos hra] at h
      exact h
    · by_cases hck : containsKey e (ra.getD "") = true
      · left
        rw [setup, if_neg hra, if_pos hck] at h
        exact h
      · rw [setup, if_neg hra, if_neg hck] at h
        exact lookupComp_append_singleton e (ra.getD "") [] k r h

/-- Witness for C9: a record found after a concrete `setup` run is the
inserted empty record. -/
theorem setup_ignores_data_w :
    lookupComp ([] : EntityDict) "c" = some [] ∨ ([] : DataRec) = [] :=
  setup_ignores_data.2 (some "c") [("f", "1")] [] "c" [] rfl

/-- C10: reading the `outline_ignore` property of a `GameSceneListener`
always raises `AttributeError`: the getter reads the name-mangled
backing attribute `_GameSceneListener__outline_ignore`, which
`__init__` (the only initialisation in the class) never assigns. -/
theorem outline_ignore_always_raises :
    outline_ignore_get gameSceneListenerInitAttrs = none := by
  rfl

end FifeRpg
